import Mathlib

/-!
A shallow embedding of the weather MCP server of this repository
(src/weather-server/src/index.ts).

Modelling conventions:
  - JavaScript numbers are modelled as rationals; Math.round is jround
    (floor of x + 1/2, i.e. round half toward positive infinity, the
    JavaScript rule).
  - The grouping key new Date(item.dt * 1000).toISOString().split(single
    quote T)[0] is the UTC calendar date of the Unix timestamp dt; two
    timestamps yield the same date string exactly when they lie in the
    same whole UTC day, so the key is modelled as Int.fdiv dt 86400, the
    day number since the epoch, which determines and is determined by
    the date part of toISOString.
  - Array.prototype.sort with a comparator is (since ES2019) a stable
    sort; the comparator here compares occurrence counts, which are
    invariant under permutation of the array, so the sort is modelled as
    a stable insertion sort ascending by the count in the original list.
  - The fetch boundary is modelled by an Upstream record holding the
    responses the provider would return; each handler returns the
    Except-result of the original async function together with the list
    of upstream calls it performed (empty list = no network attempt).
  - Response text is assembled from the same pieces as the source;
    emoji, URI encoding and locale number/date formatting are
    presentation details abstracted by toString.
-/

namespace WeatherMCP

/-- Math.round of JavaScript: round half toward positive infinity. -/
def jround (x : ℚ) : ℤ := ⌊x + 1/2⌋

/-- Math.round (x * 10) / 10 of the source: rounding to one decimal. -/
def round1 (x : ℚ) : ℚ := (jround (x * 10) : ℚ) / 10

/-- One entry of the upstream forecast list (a three-hourly slice):
dt is the Unix timestamp, temp/humidity come from item.main, windSpeed
from item.wind.speed, description from item.weather[0].description. -/
structure FEntry where
  dt : ℤ
  temp : ℚ
  humidity : ℚ
  windSpeed : ℚ
  description : String
deriving DecidableEq

/-- Grouping key of processForecastData: the UTC calendar day of the
entry, as the whole number of days since the Unix epoch. -/
def dayKey (e : FEntry) : ℤ := Int.fdiv e.dt 86400

/-- The key list of an association list modelling the Map. -/
def mapKeys (m : List (ℤ × List FEntry)) : List ℤ := m.map Prod.fst

/-- The push onto the entry of key k, leaving other entries alone. -/
def updEntry (k : ℤ) (e : FEntry) (p : ℤ × List FEntry) : ℤ × List FEntry :=
  if p.1 = k then (p.1, p.2 ++ [e]) else p

/-- One step of building the dailyData map: the has-test, then either
push onto the existing entry of that date or set a fresh singleton at
the end, keeping insertion order, exactly as the forEach loop of
processForecastData does. -/
def groupInsert (m : List (ℤ × List FEntry)) (e : FEntry) : List (ℤ × List FEntry) :=
  if dayKey e ∈ mapKeys m then
    m.map (updEntry (dayKey e) e)
  else
    m ++ [(dayKey e, [e])]

/-- The dailyData map of processForecastData, as an insertion-ordered
association list. -/
def dailyData (l : List FEntry) : List (ℤ × List FEntry) :=
  l.foldl groupInsert []

/-- Map.get on the association list. -/
def lookupG (k : ℤ) : List (ℤ × List FEntry) → Option (List FEntry)
  | [] => none
  | (k₀, g) :: m => if k₀ = k then some g else lookupG k m

/-- Stable insertion of x into a list ascending by key: x goes before
the first element of greater-or-equal key. -/
def insOrd (key : String → Nat) (x : String) : List String → List String
  | [] => [x]
  | y :: ys => if key x ≤ key y then x :: y :: ys else y :: insOrd key x ys

/-- Stable insertion sort ascending by key: the model of
Array.prototype.sort with the comparator (a, b) => key a - key b. -/
def insSortKey (key : String → Nat) : List String → List String
  | [] => []
  | x :: xs => insOrd key x (insSortKey key xs)

/-- descriptions.sort((a, b) => countIn(a) - countIn(b)) of the source:
stable ascending sort by occurrence count in the original list. -/
def sortedDescs (ds : List String) : List String :=
  insSortKey (fun d => ds.count d) ds

/-- The .pop() of the sorted description list. -/
def mostCommonDesc (ds : List String) : Option String :=
  (sortedDescs ds).getLast?

/-- mostCommon || "Unknown" of the source: undefined (empty list) and
the empty string are both falsy in JavaScript, so both fall back. -/
def dayDescription (ds : List String) : String :=
  match mostCommonDesc ds with
  | none => "Unknown"
  | some s => if s = "" then "Unknown" else s

/-- The temperature field of a per-day forecast entry. -/
structure DayTemp where
  min : ℚ
  max : ℚ
deriving DecidableEq

/-- One per-day entry of the produced forecast series.  The date field
keeps the day-number key (the toLocaleDateString rendering of it is
presentation). -/
structure DayForecast where
  date : ℤ
  temperature : DayTemp
  description : String
  humidity : ℚ
  windSpeed : ℚ
deriving DecidableEq

/-- The aggregation step of processForecastData for one date group:
min/max temperature via Math.min/Math.max over the mapped temps,
most common description via sort-and-pop, humidity and wind speed as
reduce-sums divided by the length, humidity rounded to an integer and
wind speed to one decimal. -/
def aggDay (k : ℤ) (forecasts : List FEntry) : DayForecast :=
  let temps := forecasts.map (fun f => f.temp)
  let minTemp : ℚ := match temps with | [] => 0 | t :: ts => ts.foldl min t
  let maxTemp : ℚ := match temps with | [] => 0 | t :: ts => ts.foldl max t
  let descriptions := forecasts.map (fun f => f.description)
  let humiditySum : ℚ := forecasts.foldl (fun s f => s + f.humidity) 0
  let windSum : ℚ := forecasts.foldl (fun s f => s + f.windSpeed) 0
  { date := k
    temperature := { min := round1 minTemp, max := round1 maxTemp }
    description := dayDescription descriptions
    humidity := (jround (humiditySum / (forecasts.length : ℚ)) : ℚ)
    windSpeed := round1 (windSum / (forecasts.length : ℚ)) }

/-- processForecastData of the source: group by UTC day in encounter
order, take the first days groups (the loop breaks at count >= days),
and aggregate each group. -/
def processForecastData (l : List FEntry) (days : Nat) : List DayForecast :=
  ((dailyData l).take days).map (fun p => aggDay p.1 p.2)

/-- First-occurrence deduplication of a key list, with an accumulator
of keys already seen. -/
def firstDedupAux (seen : List ℤ) : List ℤ → List ℤ
  | [] => []
  | k :: ks => if k ∈ seen then firstDedupAux seen ks else k :: firstDedupAux (k :: seen) ks

/-- The distinct keys of a list, each kept at its first occurrence, in
encounter order. -/
def firstDedup (ks : List ℤ) : List ℤ := firstDedupAux [] ks

/-- The last element of maximal key value, in encounter order: ties at
the maximal key are resolved to the later element. -/
def lastMaxBy (key : String → Nat) : List String → Option String
  | [] => none
  | x :: xs =>
    match lastMaxBy key xs with
    | none => some x
    | some y => if key y < key x then some x else some y

/-- The units enum of the validation schemas: metric, imperial, kelvin. -/
inductive TempUnits
  | metric
  | imperial
  | kelvin
deriving DecidableEq

/-- The query fragment for a units value. -/
def TempUnits.asString : TempUnits → String
  | .metric => "metric"
  | .imperial => "imperial"
  | .kelvin => "kelvin"

/-- Temperature unit label shown in responses. -/
def unitsDisplay (u : TempUnits) : String :=
  match u with
  | .metric => "°C"
  | .imperial => "°F"
  | .kelvin => "K"

/-- Wind speed unit label shown in responses. -/
def windUnits (u : TempUnits) : String :=
  match u with
  | .metric => "m/s"
  | _ => "mph"

/-- One content block of a tool response; the server only ever emits
text blocks. -/
inductive ContentBlock
  | text (s : String)
deriving DecidableEq

/-- A tool response envelope: a list of content blocks. -/
structure ToolResponse where
  content : List ContentBlock
deriving DecidableEq

/-- The three outbound endpoints of the upstream provider. -/
inductive UpstreamCall
  | currentWeather
  | forecastCall
  | geocoding
deriving DecidableEq

/-- Status information of an upstream HTTP response. -/
structure HttpResp where
  ok : Bool
  status : Nat
  statusText : String
deriving DecidableEq

/-- The JSON body of a successful current-weather response, flattened:
name, sys.country, main.temp, weather[0].description, main.humidity,
wind.speed. -/
structure CurrentBody where
  name : String
  country : String
  temp : ℚ
  description : String
  humidity : ℚ
  windSpeed : ℚ
deriving DecidableEq

/-- The JSON body of a successful forecast response, flattened:
city.name, city.country and the three-hourly list. -/
structure ForecastBody where
  cityName : String
  cityCountry : String
  list : List FEntry
deriving DecidableEq

/-- One element of the geocoding response array; state may be absent. -/
structure GeoItem where
  name : String
  country : String
  state : Option String
  lat : ℚ
  lon : ℚ
deriving DecidableEq

/-- The mapped LocationData record of searchLocations. -/
structure LocationData where
  name : String
  country : String
  state : Option String
  lat : ℚ
  lon : ℚ
deriving DecidableEq

/-- The environment a handler runs against: the configured credential
(empty string = unset, since process.env.X || "" is used), the wall
clock reading, and the responses the provider would return on each of
the three endpoints. -/
structure Upstream where
  apiKey : String
  now : String
  currentResp : HttpResp
  currentBody : CurrentBody
  forecastResp : HttpResp
  forecastBody : ForecastBody
  geoResp : HttpResp
  geoBody : List GeoItem
deriving DecidableEq

/-- The missing-credential message thrown by all three handlers. -/
def keyMissingMsg : String :=
  "OpenWeather API key not configured. Please set OPENWEATHER_API_KEY environment variable."

/-- The 404 message of the current-weather and forecast handlers. -/
def locNotFoundMsg (location : String) : String :=
  "Location \"" ++ location ++ "\" not found. Please check the spelling and try again."

/-- The generic provider-error message of the weather endpoints. -/
def weatherApiErrorMsg (status : Nat) (statusText : String) : String :=
  "Weather API error: " ++ toString status ++ " " ++ statusText

/-- The provider-error message of the geocoding endpoint. -/
def geoApiErrorMsg (status : Nat) (statusText : String) : String :=
  "Geocoding API error: " ++ toString status ++ " " ++ statusText

/-- The zero-match message of searchLocations. -/
def noLocationsMsg (query : String) : String :=
  "No locations found for \"" ++ query ++ "\". Please try a different search term."

/-- The formatted current-weather text (emoji and locale date rendering
abstracted). -/
def currentWeatherText (loc : String) (temperature : ℚ) (description : String)
    (humidity : ℚ) (windSpeed : ℚ) (u : TempUnits) (now : String) : String :=
  "**Current Weather for " ++ loc ++ "**\n\n" ++
  "**Temperature:** " ++ toString temperature ++ unitsDisplay u ++ "\n" ++
  "**Condition:** " ++ description ++ "\n" ++
  "**Humidity:** " ++ toString humidity ++ "%\n" ++
  "**Wind Speed:** " ++ toString windSpeed ++ " " ++ windUnits u ++ "\n\n" ++
  "*Updated: " ++ now ++ "*"

/-- getCurrentWeather: credential precondition, fetch, 404 / non-2xx
translation, then format.  The second component lists the upstream
calls attempted. -/
def getCurrentWeather (env : Upstream) (location : String) (u : TempUnits) :
    Except String ToolResponse × List UpstreamCall :=
  if env.apiKey = "" then
    (.error keyMissingMsg, [])
  else if env.currentResp.ok = false then
    if env.currentResp.status = 404 then
      (.error (locNotFoundMsg location), [.currentWeather])
    else
      (.error (weatherApiErrorMsg env.currentResp.status env.currentResp.statusText),
        [.currentWeather])
  else
    (.ok ⟨[.text (currentWeatherText
        (env.currentBody.name ++ ", " ++ env.currentBody.country)
        (round1 env.currentBody.temp)
        env.currentBody.description
        env.currentBody.humidity
        env.currentBody.windSpeed
        u env.now)]⟩,
      [.currentWeather])

/-- One per-day block of the forecast text. -/
def forecastLine (u : TempUnits) (idx : Nat) (f : DayForecast) : String :=
  "**Day " ++ toString (idx + 1) ++ " - " ++ toString f.date ++ "**\n" ++
  "**Temperature:** " ++ toString f.temperature.min ++ unitsDisplay u ++ " - " ++
    toString f.temperature.max ++ unitsDisplay u ++ "\n" ++
  "**Condition:** " ++ f.description ++ "\n" ++
  "**Humidity:** " ++ toString f.humidity ++ "%\n" ++
  "**Wind Speed:** " ++ toString f.windSpeed ++ " " ++ windUnits u ++ "\n\n"

/-- The formatted forecast text before the final trim. -/
def forecastText (days : Nat) (loc : String) (u : TempUnits)
    (dailyForecasts : List DayForecast) : String :=
  "**" ++ toString days ++ "-Day Weather Forecast for " ++ loc ++ "**\n\n" ++
  String.join (dailyForecasts.enum.map (fun p => forecastLine u p.1 p.2))

/-- getWeatherForecast: credential precondition, fetch, 404 / non-2xx
translation, processForecastData on the returned list, then format. -/
def getWeatherForecast (env : Upstream) (location : String) (days : Nat) (u : TempUnits) :
    Except String ToolResponse × List UpstreamCall :=
  if env.apiKey = "" then
    (.error keyMissingMsg, [])
  else if env.forecastResp.ok = false then
    if env.forecastResp.status = 404 then
      (.error (locNotFoundMsg location), [.forecastCall])
    else
      (.error (weatherApiErrorMsg env.forecastResp.status env.forecastResp.statusText),
        [.forecastCall])
  else
    let dailyForecasts := processForecastData env.forecastBody.list days
    let loc := env.forecastBody.cityName ++ ", " ++ env.forecastBody.cityCountry
    (.ok ⟨[.text (forecastText days loc u dailyForecasts).trim]⟩, [.forecastCall])

/-- The data.map step of searchLocations. -/
def toLocationData (item : GeoItem) : LocationData :=
  { name := item.name, country := item.country, state := item.state,
    lat := item.lat, lon := item.lon }

/-- One numbered line of the search response, with the state included
when present. -/
def locationLine (idx : Nat) (location : LocationData) : String :=
  let displayName :=
    match location.state with
    | some s => location.name ++ ", " ++ s ++ ", " ++ location.country
    | none => location.name ++ ", " ++ location.country
  toString (idx + 1) ++ ". **" ++ displayName ++ "**\n" ++
  "   Coordinates: " ++ toString location.lat ++ ", " ++ toString location.lon ++ "\n\n"

/-- The formatted search text before the final trim: a header counting
the results, then one line per location. -/
def locationsText (query : String) (locations : List LocationData) : String :=
  "**Found " ++ toString locations.length ++ " location(s) for \"" ++ query ++ "\":**\n\n" ++
  String.join (locations.enum.map (fun p => locationLine p.1 p.2))

/-- searchLocations: credential precondition, fetch, generic non-2xx
translation (no 404 special case on this endpoint), zero-match message
for an empty array, else one line per returned element. -/
def searchLocations (env : Upstream) (query : String) (limit : Nat) :
    Except String ToolResponse × List UpstreamCall :=
  if env.apiKey = "" then
    (.error keyMissingMsg, [])
  else if env.geoResp.ok = false then
    (.error (geoApiErrorMsg env.geoResp.status env.geoResp.statusText), [.geocoding])
  else if env.geoBody.length = 0 then
    (.ok ⟨[.text (noLocationsMsg query)]⟩, [.geocoding])
  else
    let locations := env.geoBody.map toLocationData
    (.ok ⟨[.text (locationsText query locations).trim]⟩, [.geocoding])

/-- The argument bag of a tool call, already past schema validation;
the constructor carries the fields of the corresponding schema with
defaults substituted. -/
inductive ToolArgs
  | currentWeather (location : String) (u : TempUnits)
  | forecast (location : String) (days : Nat) (u : TempUnits)
  | search (query : String) (limit : Nat)
deriving DecidableEq

/-- The try-block of the CallToolRequest handler: dispatch on the tool
name, run the handler, or throw for an unknown tool; a bag not matching
the schema of the named tool is the zod parse throw (its message text
is abstracted). -/
def dispatchResult (env : Upstream) (name : String) (args : ToolArgs) :
    Except String ToolResponse :=
  if name = "get_current_weather" then
    match args with
    | .currentWeather loc u => (getCurrentWeather env loc u).1
    | _ => .error "Invalid arguments"
  else if name = "get_weather_forecast" then
    match args with
    | .forecast loc d u => (getWeatherForecast env loc d u).1
    | _ => .error "Invalid arguments"
  else if name = "search_locations" then
    match args with
    | .search q lim => (searchLocations env q lim).1
    | _ => .error "Invalid arguments"
  else
    .error ("Unknown tool: " ++ name)

/-- The whole CallToolRequest handler: any thrown error is caught and
rendered as a text block starting with the Error: prefix. -/
def callTool (env : Upstream) (name : String) (args : ToolArgs) : ToolResponse :=
  match dispatchResult env name args with
  | .ok r => r
  | .error msg => ⟨[.text ("Error: " ++ msg)]⟩

/-- Substring test used to state claims about message shapes. -/
def hasSub (pat : List Char) : List Char → Bool
  | [] => pat.isEmpty
  | c :: cs => pat.isPrefixOf (c :: cs) || hasSub pat cs

/-- Whether pat occurs as a contiguous substring of s. -/
def strContains (s pat : String) : Bool := hasSub pat.toList s.toList

/-- Concrete forecast entry: midnight of day 0, humidity 50. -/
def exEntryA : FEntry := { dt := 0, temp := 10, humidity := 50, windSpeed := 3, description := "clear sky" }

/-- Concrete forecast entry: one hour later on the same day, humidity 51. -/
def exEntryB : FEntry := { dt := 3600, temp := 20, humidity := 51, windSpeed := 4, description := "rain" }

/-- A one-day upstream list whose humidity mean 101/2 is not an integer. -/
def exC2 : List FEntry := [exEntryA, exEntryB]

/-- Concrete forecast entry whose description is the empty string. -/
def exEntryE : FEntry := { dt := 0, temp := 10, humidity := 50, windSpeed := 3, description := "" }

/-- A one-entry upstream list whose only description is the empty string. -/
def exC3 : List FEntry := [exEntryE]

/-- A fully healthy upstream environment used to instantiate theorems. -/
def baseEnv : Upstream :=
  { apiKey := "key", now := "now",
    currentResp := { ok := true, status := 200, statusText := "OK" },
    currentBody := { name := "London", country := "GB", temp := 21/2,
                     description := "clear sky", humidity := 80, windSpeed := 5 },
    forecastResp := { ok := true, status := 200, statusText := "OK" },
    forecastBody := { cityName := "London", cityCountry := "GB", list := exC2 },
    geoResp := { ok := true, status := 200, statusText := "OK" },
    geoBody := [{ name := "London", country := "GB", state := none, lat := 103/2, lon := -1/8 }] }

/-- An environment whose geocoding endpoint answers 404. -/
def envGeo404 : Upstream :=
  { baseEnv with geoResp := { ok := false, status := 404, statusText := "Not Found" } }

/-- An environment with no configured credential. -/
def envNoKey : Upstream := { baseEnv with apiKey := "" }

/-- An environment where every endpoint fails: current weather with
404, forecast with 500, geocoding with 403. -/
def envAllBad : Upstream :=
  { baseEnv with
    currentResp := { ok := false, status := 404, statusText := "Not Found" },
    forecastResp := { ok := false, status := 500, statusText := "Internal Server Error" },
    geoResp := { ok := false, status := 403, statusText := "Forbidden" } }

/-- An environment whose geocoding endpoint returns an empty array. -/
def envGeoEmpty : Upstream := { baseEnv with geoBody := [] }

/-- An environment whose geocoding endpoint returns three elements,
more than a limit of 2. -/
def envGeoThree : Upstream :=
  { baseEnv with geoBody :=
      [{ name := "Paris", country := "FR", state := none, lat := 4885/100, lon := 235/100 },
       { name := "Paris", country := "US", state := some "Texas", lat := 3366/100, lon := -9556/100 },
       { name := "Paris", country := "CA", state := some "Ontario", lat := 4318/100, lon := -8038/100 }] }

/-- Five entries on five distinct UTC days. -/
def exC1 : List FEntry :=
  [{ dt := 0, temp := 10, humidity := 50, windSpeed := 3, description := "a" },
   { dt := 86400, temp := 11, humidity := 51, windSpeed := 3, description := "b" },
   { dt := 172800, temp := 12, humidity := 52, windSpeed := 3, description := "c" },
   { dt := 259200, temp := 13, humidity := 53, windSpeed := 3, description := "d" },
   { dt := 345600, temp := 14, humidity := 54, windSpeed := 3, description := "e" }]

/-- Concrete entry on UTC day 2 (first slice). -/
def exEntryD2a : FEntry := { dt := 172800, temp := 15, humidity := 60, windSpeed := 2, description := "mist" }

/-- Concrete entry on UTC day 0, listed after a day-2 entry. -/
def exEntryD0 : FEntry := { dt := 3600, temp := 9, humidity := 40, windSpeed := 1, description := "clear sky" }

/-- Concrete entry on UTC day 2 (second slice). -/
def exEntryD2b : FEntry := { dt := 176400, temp := 17, humidity := 62, windSpeed := 3, description := "mist" }

/-- An upstream list whose days are out of chronological order: day 2
is encountered before day 0. -/
def exC10 : List FEntry := [exEntryD2a, exEntryD0, exEntryD2b]

/-- The day-2 group of exC10, in encounter order. -/
def exGroupD2 : List FEntry := [exEntryD2a, exEntryD2b]

/-! Lemmas about the stable sort-and-pop idiom of the description
aggregation. -/

theorem insOrd_cons (key : String → Nat) (x y : String) (ys : List String) :
    insOrd key x (y :: ys) =
      if key x ≤ key y then x :: y :: ys else y :: insOrd key x ys := rfl

theorem getLast?_cons_ne_nil {α : Type} (a : α) {l : List α} (h : l ≠ []) :
    (a :: l).getLast? = l.getLast? := by
  rcases List.exists_cons_of_ne_nil h with ⟨b, bs, rfl⟩
  exact List.getLast?_cons_cons

theorem insOrd_ne_nil (key : String → Nat) (x : String) (l : List String) :
    insOrd key x l ≠ [] := by
  cases l with
  | nil => simp [insOrd]
  | cons y ys =>
    rw [insOrd_cons]
    split <;> simp

theorem mem_insOrd (key : String → Nat) (x z : String) (l : List String)
    (h : z ∈ insOrd key x l) : z = x ∨ z ∈ l := by
  induction l with
  | nil => simpa [insOrd] using h
  | cons y ys ih =>
    rw [insOrd_cons] at h
    split at h
    · rcases List.mem_cons.mp h with h | h
      · exact Or.inl h
      · exact Or.inr h
    · rcases List.mem_cons.mp h with h | h
      · subst h; exact Or.inr (List.mem_cons_self _ _)
      · rcases ih h with h | h
        · exact Or.inl h
        · exact Or.inr (List.mem_cons_of_mem _ h)

theorem insOrd_sorted (key : String → Nat) (x : String) (l : List String)
    (h : l.Pairwise (fun a b => key a ≤ key b)) :
    (insOrd key x l).Pairwise (fun a b => key a ≤ key b) := by
  induction l with
  | nil => simp [insOrd]
  | cons y ys ih =>
    rcases List.pairwise_cons.mp h with ⟨hy, hys⟩
    rw [insOrd_cons]
    split
    · rename_i hxy
      refine List.pairwise_cons.mpr ⟨?_, h⟩
      intro z hz
      rcases List.mem_cons.mp hz with rfl | hz
      · exact hxy
      · exact le_trans hxy (hy z hz)
    · rename_i hxy
      refine List.pairwise_cons.mpr ⟨?_, ih hys⟩
      intro z hz
      rcases mem_insOrd key x z ys hz with rfl | hz
      · exact le_of_not_le hxy
      · exact hy z hz

theorem insOrd_getLast (key : String → Nat) (x : String) :
    ∀ (l : List String), l.Pairwise (fun a b => key a ≤ key b) →
      ∀ z, l.getLast? = some z →
      (insOrd key x l).getLast? = some (if key x ≤ key z then z else x)
  | [], _, z, hz => by simp at hz
  | [y], _, z, hz => by
    simp only [List.getLast?_singleton, Option.some.injEq] at hz
    subst hz
    rw [insOrd_cons]
    by_cases hxy : key x ≤ key y
    · rw [if_pos hxy, if_pos hxy]; rfl
    · rw [if_neg hxy, if_neg hxy]; rfl
  | y :: y' :: ys, h, z, hz => by
    rcases List.pairwise_cons.mp h with ⟨hy, hys⟩
    rw [List.getLast?_cons_cons] at hz
    have hzmem : z ∈ y' :: ys := List.mem_of_getLast?_eq_some hz
    rw [insOrd_cons]
    by_cases hxy : key x ≤ key y
    · rw [if_pos hxy]
      have hyz : key y ≤ key z := hy z hzmem
      rw [if_pos (le_trans hxy hyz)]
      rw [List.getLast?_cons_cons, List.getLast?_cons_cons]
      exact hz
    · rw [if_neg hxy]
      have htail := insOrd_getLast key x (y' :: ys) hys z hz
      rw [getLast?_cons_ne_nil y (insOrd_ne_nil key x (y' :: ys))]
      exact htail

theorem insSortKey_sorted (key : String → Nat) :
    ∀ l : List String, (insSortKey key l).Pairwise (fun a b => key a ≤ key b)
  | [] => by simp [insSortKey]
  | x :: xs => by
    simp only [insSortKey]
    exact insOrd_sorted key x _ (insSortKey_sorted key xs)

theorem lastMaxBy_eq_none_iff (key : String → Nat) (l : List String) :
    lastMaxBy key l = none ↔ l = [] := by
  cases l with
  | nil => simp [lastMaxBy]
  | cons x xs =>
    cases hx : lastMaxBy key xs with
    | none => simp [lastMaxBy, hx]
    | some y =>
      simp only [lastMaxBy, hx]
      split <;> simp

theorem insSortKey_getLast (key : String → Nat) :
    ∀ l : List String, (insSortKey key l).getLast? = lastMaxBy key l
  | [] => rfl
  | x :: xs => by
    simp only [insSortKey]
    cases hx : lastMaxBy key xs with
    | none =>
      have : xs = [] := (lastMaxBy_eq_none_iff key xs).mp hx
      subst this
      simp [insSortKey, insOrd, lastMaxBy]
    | some z =>
      have ih : (insSortKey key xs).getLast? = some z := by
        rw [insSortKey_getLast key xs, hx]
      have hsorted := insSortKey_sorted key xs
      have := insOrd_getLast key x (insSortKey key xs) hsorted z ih
      rw [this]
      simp only [lastMaxBy, hx]
      by_cases hle : key x ≤ key z
      · rw [if_pos hle, if_neg (not_lt.mpr hle)]
      · rw [if_neg hle, if_pos (not_le.mp hle)]

theorem lastMaxBy_spec (key : String → Nat) :
    ∀ (l : List String) (w : String), lastMaxBy key l = some w →
      w ∈ l ∧ (∀ d ∈ l, key d ≤ key w) ∧
      (l.filter (fun d => key d == key w)).getLast? = some w
  | [], w, hw => by simp [lastMaxBy] at hw
  | x :: xs, w, hw => by
    cases hx : lastMaxBy key xs with
    | none =>
      have hxs : xs = [] := (lastMaxBy_eq_none_iff key xs).mp hx
      subst hxs
      simp only [lastMaxBy, hx, Option.some.injEq] at hw
      subst hw
      refine ⟨List.mem_cons_self _ _, ?_, ?_⟩
      · intro d hd
        rcases List.mem_cons.mp hd with rfl | hd
        · exact le_rfl
        · simp at hd
      · simp
    | some y =>
      simp only [lastMaxBy, hx] at hw
      obtain ⟨hymem, hybound, hyfilter⟩ := lastMaxBy_spec key xs y hx
      split at hw <;> rename_i hcmp <;>
        simp only [Option.some.injEq] at hw <;> subst hw
      · -- key y < key x: the new head strictly dominates, w = x
        refine ⟨List.mem_cons_self _ _, ?_, ?_⟩
        · intro d hd
          rcases List.mem_cons.mp hd with rfl | hd
          · exact le_rfl
          · exact le_of_lt (lt_of_le_of_lt (hybound d hd) hcmp)
        · have hnil : xs.filter (fun d => key d == key x) = [] := by
            refine List.filter_eq_nil_iff.mpr ?_
            intro d hd
            simp only [beq_iff_eq]
            exact ne_of_lt (lt_of_le_of_lt (hybound d hd) hcmp)
          rw [List.filter_cons]
          simp [hnil]
      · -- not (key y < key x): the previous maximum stands, w = y
        have hxle : key x ≤ key y := not_lt.mp hcmp
        refine ⟨List.mem_cons_of_mem _ hymem, ?_, ?_⟩
        · intro d hd
          rcases List.mem_cons.mp hd with rfl | hd
          · exact hxle
          · exact hybound d hd
        · have hne : xs.filter (fun d => key d == key y) ≠ [] := by
            intro hcon
            rw [hcon] at hyfilter
            simp at hyfilter
          rw [List.filter_cons]
          split
          · rw [getLast?_cons_ne_nil x hne]
            exact hyfilter
          · exact hyfilter

/-! Lemmas about the date-keyed grouping map. -/

theorem lookupG_cons (k k₀ : ℤ) (g : List FEntry) (m : List (ℤ × List FEntry)) :
    lookupG k ((k₀, g) :: m) = if k₀ = k then some g else lookupG k m := rfl

theorem updEntry_self (k : ℤ) (e : FEntry) (g : List FEntry) :
    updEntry k e (k, g) = (k, g ++ [e]) := by
  simp [updEntry]

theorem updEntry_ne (k k₀ : ℤ) (e : FEntry) (g : List FEntry) (h : k₀ ≠ k) :
    updEntry k e (k₀, g) = (k₀, g) := by
  simp [updEntry, h]

theorem updEntry_fst (k : ℤ) (e : FEntry) (p : ℤ × List FEntry) :
    (updEntry k e p).1 = p.1 := by
  unfold updEntry
  split <;> rfl

theorem mapKeys_groupInsert_mem (m : List (ℤ × List FEntry)) (e : FEntry)
    (h : dayKey e ∈ mapKeys m) : mapKeys (groupInsert m e) = mapKeys m := by
  unfold groupInsert
  rw [if_pos h]
  simp only [mapKeys, List.map_map]
  refine List.map_congr_left ?_
  intro p _
  exact updEntry_fst (dayKey e) e p

theorem mapKeys_groupInsert_new (m : List (ℤ × List FEntry)) (e : FEntry)
    (h : dayKey e ∉ mapKeys m) : mapKeys (groupInsert m e) = mapKeys m ++ [dayKey e] := by
  unfold groupInsert
  rw [if_neg h]
  simp [mapKeys]

theorem lookupG_map_update (k : ℤ) (e : FEntry) :
    ∀ m : List (ℤ × List FEntry),
      lookupG k (m.map (updEntry k e)) = (lookupG k m).map (fun g => g ++ [e])
  | [] => rfl
  | (k₀, v) :: m => by
    rw [List.map_cons]
    by_cases hk : k₀ = k
    · subst hk
      rw [updEntry_self, lookupG_cons, lookupG_cons, if_pos rfl, if_pos rfl]
      rfl
    · rw [updEntry_ne _ _ _ _ hk, lookupG_cons, lookupG_cons, if_neg hk, if_neg hk]
      exact lookupG_map_update k e m

theorem lookupG_map_update_other (k k' : ℤ) (e : FEntry) (h : k' ≠ k) :
    ∀ m : List (ℤ × List FEntry),
      lookupG k' (m.map (updEntry k e)) = lookupG k' m
  | [] => rfl
  | (k₀, v) :: m => by
    rw [List.map_cons]
    by_cases hk : k₀ = k
    · subst hk
      have hne : k₀ ≠ k' := fun hc => h hc.symm
      rw [updEntry_self, lookupG_cons, lookupG_cons, if_neg hne, if_neg hne]
      exact lookupG_map_update_other k₀ k' e h m
    · rw [updEntry_ne _ _ _ _ hk, lookupG_cons, lookupG_cons]
      by_cases hc : k₀ = k'
      · rw [if_pos hc, if_pos hc]
      · rw [if_neg hc, if_neg hc]
        exact lookupG_map_update_other k k' e h m

theorem lookupG_append_new (k : ℤ) (v : List FEntry) :
    ∀ m : List (ℤ × List FEntry), lookupG k m = none →
      lookupG k (m ++ [(k, v)]) = some v
  | [], _ => by
    rw [List.nil_append, lookupG_cons, if_pos rfl]
  | (k₀, u) :: m, h => by
    rw [lookupG_cons] at h
    rw [List.cons_append, lookupG_cons]
    by_cases hc : k₀ = k
    · rw [if_pos hc] at h; exact Option.noConfusion h
    · rw [if_neg hc] at h
      rw [if_neg hc]
      exact lookupG_append_new k v m h

theorem lookupG_append_other (k k' : ℤ) (v : List FEntry) (h : k' ≠ k) :
    ∀ m : List (ℤ × List FEntry),
      lookupG k' (m ++ [(k, v)]) = lookupG k' m
  | [] => by
    rw [List.nil_append, lookupG_cons, if_neg (fun hc => h hc.symm)]
  | (k₀, u) :: m => by
    rw [List.cons_append, lookupG_cons, lookupG_cons]
    by_cases hc : k₀ = k'
    · rw [if_pos hc, if_pos hc]
    · rw [if_neg hc, if_neg hc]
      exact lookupG_append_other k k' v h m

theorem lookupG_eq_none_iff (k : ℤ) :
    ∀ m : List (ℤ × List FEntry), lookupG k m = none ↔ k ∉ mapKeys m
  | [] => by simp [lookupG, mapKeys]
  | (k₀, v) :: m => by
    rw [lookupG_cons]
    simp only [mapKeys, List.map_cons, List.mem_cons]
    by_cases hc : k₀ = k
    · subst hc
      rw [if_pos rfl]
      simp
    · rw [if_neg hc]
      rw [lookupG_eq_none_iff k m]
      simp only [mapKeys]
      constructor
      · intro h hmem
        rcases hmem with hmem | hmem
        · exact hc hmem.symm
        · exact h hmem
      · intro h hmem
        exact h (Or.inr hmem)

theorem lookupG_groupInsert_other (m : List (ℤ × List FEntry)) (e : FEntry) (k' : ℤ)
    (h : k' ≠ dayKey e) :
    lookupG k' (groupInsert m e) = lookupG k' m := by
  unfold groupInsert
  split
  · exact lookupG_map_update_other (dayKey e) k' e h m
  · exact lookupG_append_other (dayKey e) k' [e] h m

theorem lookupG_groupInsert_self_some (m : List (ℤ × List FEntry)) (e : FEntry)
    (g : List FEntry) (h : lookupG (dayKey e) m = some g) :
    lookupG (dayKey e) (groupInsert m e) = some (g ++ [e]) := by
  unfold groupInsert
  split
  · rw [lookupG_map_update (dayKey e) e m, h]
    rfl
  · rename_i hmem
    have : dayKey e ∈ mapKeys m := by
      by_contra hc
      rw [(lookupG_eq_none_iff (dayKey e) m).mpr hc] at h
      exact Option.noConfusion h
    exact absurd this hmem

theorem lookupG_groupInsert_self_none (m : List (ℤ × List FEntry)) (e : FEntry)
    (h : lookupG (dayKey e) m = none) :
    lookupG (dayKey e) (groupInsert m e) = some [e] := by
  unfold groupInsert
  split
  · rename_i hmem
    exact absurd hmem ((lookupG_eq_none_iff (dayKey e) m).mp h)
  · exact lookupG_append_new (dayKey e) [e] m h

theorem lookupG_foldl_some (k : ℤ) :
    ∀ (l : List FEntry) (m : List (ℤ × List FEntry)) (g : List FEntry),
      lookupG k m = some g →
      lookupG k (List.foldl groupInsert m l) =
        some (g ++ l.filter (fun e => dayKey e == k))
  | [], m, g, h => by simpa using h
  | e :: l, m, g, h => by
    rw [List.foldl_cons]
    by_cases hk : dayKey e = k
    · subst hk
      have h1 := lookupG_groupInsert_self_some m e g h
      have h2 := lookupG_foldl_some (dayKey e) l (groupInsert m e) (g ++ [e]) h1
      rw [h2]
      simp [List.filter_cons, List.append_assoc]
    · have h1 : lookupG k (groupInsert m e) = some g := by
        rw [lookupG_groupInsert_other m e k (fun hc => hk hc.symm)]
        exact h
      have h2 := lookupG_foldl_some k l (groupInsert m e) g h1
      rw [h2, List.filter_cons, if_neg]
      simp only [beq_iff_eq]
      exact hk

theorem lookupG_foldl_none (k : ℤ) :
    ∀ (l : List FEntry) (m : List (ℤ × List FEntry)),
      lookupG k m = none →
      lookupG k (List.foldl groupInsert m l) =
        if l.filter (fun e => dayKey e == k) = [] then none
        else some (l.filter (fun e => dayKey e == k))
  | [], m, h => by simpa using h
  | e :: l, m, h => by
    rw [List.foldl_cons]
    by_cases hk : dayKey e = k
    · subst hk
      have h1 := lookupG_groupInsert_self_none m e h
      have h2 := lookupG_foldl_some (dayKey e) l (groupInsert m e) [e] h1
      rw [h2]
      have hfil : List.filter (fun x => dayKey x == dayKey e) (e :: l) =
          e :: List.filter (fun x => dayKey x == dayKey e) l := by
        simp [List.filter_cons]
      rw [hfil, if_neg (by simp)]
      simp
    · have h1 : lookupG k (groupInsert m e) = none := by
        rw [lookupG_groupInsert_other m e k (fun hc => hk hc.symm)]
        exact h
      have h2 := lookupG_foldl_none k l (groupInsert m e) h1
      rw [h2]
      have hfil : List.filter (fun x => dayKey x == k) (e :: l) =
          List.filter (fun x => dayKey x == k) l := by
        simp [List.filter_cons, hk]
      rw [hfil]

theorem mem_keys_of_mem {m : List (ℤ × List FEntry)} {k : ℤ} {g : List FEntry}
    (h : (k, g) ∈ m) : k ∈ mapKeys m :=
  List.mem_map_of_mem Prod.fst h

theorem mem_iff_lookupG :
    ∀ (m : List (ℤ × List FEntry)), (mapKeys m).Nodup →
      ∀ (k : ℤ) (g : List FEntry), ((k, g) ∈ m ↔ lookupG k m = some g)
  | [], _, k, g => by simp [lookupG]
  | (k₀, g₀) :: m, hm, k, g => by
    have hnodup : (mapKeys m).Nodup ∧ k₀ ∉ mapKeys m := by
      rw [mapKeys, List.map_cons, List.nodup_cons] at hm
      exact ⟨hm.2, hm.1⟩
    simp only [lookupG]
    constructor
    · intro h
      rcases List.mem_cons.mp h with h | h
      · rw [Prod.ext_iff] at h
        obtain ⟨h1, h2⟩ := h
        simp only at h1 h2
        subst h1; subst h2
        rw [if_pos rfl]
      · have hk : k₀ ≠ k := by
          rintro rfl
          exact hnodup.2 (mem_keys_of_mem h)
        rw [if_neg hk]
        exact ((mem_iff_lookupG m hnodup.1 k g).mp h)
    · intro h
      by_cases hc : k₀ = k
      · subst hc
        rw [if_pos rfl] at h
        simp only [Option.some.injEq] at h
        subst h
        exact List.mem_cons_self _ _
      · rw [if_neg hc] at h
        exact List.mem_cons_of_mem _ ((mem_iff_lookupG m hnodup.1 k g).mpr h)

theorem mapKeys_foldl_nodup :
    ∀ (l : List FEntry) (m : List (ℤ × List FEntry)),
      (mapKeys m).Nodup → (mapKeys (List.foldl groupInsert m l)).Nodup
  | [], m, h => h
  | e :: l, m, h => by
    rw [List.foldl_cons]
    refine mapKeys_foldl_nodup l (groupInsert m e) ?_
    by_cases hmem : dayKey e ∈ mapKeys m
    · rw [mapKeys_groupInsert_mem m e hmem]; exact h
    · rw [mapKeys_groupInsert_new m e hmem]
      rw [List.nodup_append]
      exact ⟨h, List.nodup_singleton _, by simpa using hmem⟩

theorem mapKeys_foldl_eq :
    ∀ (l : List FEntry) (m : List (ℤ × List FEntry)) (seen : List ℤ),
      (∀ x : ℤ, x ∈ seen ↔ x ∈ mapKeys m) →
      mapKeys (List.foldl groupInsert m l) =
        mapKeys m ++ firstDedupAux seen (l.map dayKey)
  | [], m, seen, _ => by simp [firstDedupAux]
  | e :: l, m, seen, hiff => by
    rw [List.foldl_cons, List.map_cons]
    by_cases hmem : dayKey e ∈ seen
    · have hkeys : dayKey e ∈ mapKeys m := (hiff _).mp hmem
      rw [show firstDedupAux seen (dayKey e :: l.map dayKey) =
            firstDedupAux seen (l.map dayKey) by simp [firstDedupAux, hmem]]
      have heq := mapKeys_groupInsert_mem m e hkeys
      rw [mapKeys_foldl_eq l (groupInsert m e) seen (by rw [heq]; exact hiff), heq]
    · have hkeys : dayKey e ∉ mapKeys m := fun hc => hmem ((hiff _).mpr hc)
      rw [show firstDedupAux seen (dayKey e :: l.map dayKey) =
            dayKey e :: firstDedupAux (dayKey e :: seen) (l.map dayKey) by
          simp [firstDedupAux, hmem]]
      have heq := mapKeys_groupInsert_new m e hkeys
      rw [mapKeys_foldl_eq l (groupInsert m e) (dayKey e :: seen) ?_, heq]
      · rw [List.append_assoc, List.singleton_append]
      · intro x
        rw [heq]
        simp only [List.mem_cons, List.mem_append, List.mem_singleton]
        rw [hiff x]
        tauto

theorem dailyData_keys (l : List FEntry) :
    mapKeys (dailyData l) = firstDedup (l.map dayKey) := by
  have := mapKeys_foldl_eq l [] [] (by simp [mapKeys])
  simpa [dailyData, mapKeys, firstDedup] using this

theorem dailyData_keys_nodup (l : List FEntry) : (mapKeys (dailyData l)).Nodup :=
  mapKeys_foldl_nodup l [] (by simp [mapKeys])

theorem lookupG_dailyData (l : List FEntry) (k : ℤ) :
    lookupG k (dailyData l) =
      if l.filter (fun e => dayKey e == k) = [] then none
      else some (l.filter (fun e => dayKey e == k)) :=
  lookupG_foldl_none k l [] rfl

theorem mem_dailyData {l : List FEntry} {k : ℤ} {g : List FEntry}
    (h : (k, g) ∈ dailyData l) :
    g = l.filter (fun e => dayKey e == k) ∧ g ≠ [] := by
  have hl := (mem_iff_lookupG (dailyData l) (dailyData_keys_nodup l) k g).mp h
  rw [lookupG_dailyData] at hl
  split at hl
  · exact Option.noConfusion hl
  · rename_i hne
    simp only [Option.some.injEq] at hl
    subst hl
    exact ⟨rfl, Ne.symm (by simpa using hne) ∘ Eq.symm⟩

theorem mem_firstDedupAux :
    ∀ (ks seen : List ℤ) (x : ℤ), x ∈ firstDedupAux seen ks → x ∈ ks ∧ x ∉ seen
  | [], seen, x, h => by simp [firstDedupAux] at h
  | k :: ks, seen, x, h => by
    simp only [firstDedupAux] at h
    split at h
    · obtain ⟨h1, h2⟩ := mem_firstDedupAux ks seen x h
      exact ⟨List.mem_cons_of_mem _ h1, h2⟩
    · rcases List.mem_cons.mp h with rfl | h
      · rename_i hns
        exact ⟨List.mem_cons_self _ _, hns⟩
      · obtain ⟨h1, h2⟩ := mem_firstDedupAux ks (k :: seen) x h
        refine ⟨List.mem_cons_of_mem _ h1, fun hc => h2 (List.mem_cons_of_mem _ hc)⟩

theorem firstDedupAux_nodup : ∀ (ks seen : List ℤ), (firstDedupAux seen ks).Nodup
  | [], seen => by simp [firstDedupAux]
  | k :: ks, seen => by
    simp only [firstDedupAux]
    split
    · exact firstDedupAux_nodup ks seen
    · rw [List.nodup_cons]
      refine ⟨?_, firstDedupAux_nodup ks (k :: seen)⟩
      intro hc
      exact (mem_firstDedupAux ks (k :: seen) k hc).2 (List.mem_cons_self _ _)

theorem firstDedupAux_toFinset :
    ∀ (ks seen : List ℤ), (firstDedupAux seen ks).toFinset = ks.toFinset \ seen.toFinset
  | [], seen => by simp [firstDedupAux]
  | k :: ks, seen => by
    simp only [firstDedupAux]
    split
    · rename_i hmem
      rw [firstDedupAux_toFinset ks seen]
      ext x
      simp only [Finset.mem_sdiff, List.mem_toFinset, List.mem_cons]
      constructor
      · rintro ⟨h1, h2⟩; exact ⟨Or.inr h1, h2⟩
      · rintro ⟨h1 | h1, h2⟩
        · subst h1; exact absurd hmem h2
        · exact ⟨h1, h2⟩
    · rename_i hmem
      rw [List.toFinset_cons, firstDedupAux_toFinset ks (k :: seen)]
      ext x
      simp only [Finset.mem_insert, Finset.mem_sdiff, List.mem_toFinset, List.mem_cons,
        List.toFinset_cons]
      constructor
      · rintro (rfl | ⟨h1, h2⟩)
        · exact ⟨Or.inl rfl, hmem⟩
        · refine ⟨Or.inr h1, fun hc => h2 (Or.inr hc)⟩
      · rintro ⟨rfl | h1, h2⟩
        · exact Or.inl rfl
        · by_cases hx : x = k
          · exact Or.inl hx
          · exact Or.inr ⟨h1, fun hc => h2 (hc.resolve_left hx)⟩

theorem firstDedup_length (ks : List ℤ) : (firstDedup ks).length = ks.toFinset.card := by
  have h1 : (firstDedup ks).toFinset = ks.toFinset := by
    rw [firstDedup, firstDedupAux_toFinset ks []]
    simp
  rw [← h1]
  exact (List.toFinset_card_of_nodup (firstDedupAux_nodup ks [])).symm

/-! Lemmas about the per-day aggregation. -/

theorem foldl_min_mem : ∀ (ts : List ℚ) (t : ℚ), ts.foldl min t ∈ t :: ts
  | [], t => by simp
  | t' :: ts, t => by
    rw [List.foldl_cons]
    rcases List.mem_cons.mp (foldl_min_mem ts (min t t')) with h | h
    · rw [h]
      rcases min_choice t t' with hc | hc <;> rw [hc]
      · exact List.mem_cons_self _ _
      · exact List.mem_cons_of_mem _ (List.mem_cons_self _ _)
    · exact List.mem_cons_of_mem _ (List.mem_cons_of_mem _ h)

theorem foldl_min_le : ∀ (ts : List ℚ) (t x : ℚ), x ∈ t :: ts → ts.foldl min t ≤ x
  | [], t, x, hx => by
    rw [List.mem_singleton] at hx
    subst hx
    exact le_rfl
  | t' :: ts, t, x, hx => by
    rw [List.foldl_cons]
    rcases List.mem_cons.mp hx with h | hx
    · rw [h]
      exact le_trans (foldl_min_le ts (min t t') _ (List.mem_cons_self _ _)) (min_le_left t t')
    · rcases List.mem_cons.mp hx with h | hx
      · rw [h]
        exact le_trans (foldl_min_le ts (min t t') _ (List.mem_cons_self _ _)) (min_le_right t t')
      · exact foldl_min_le ts (min t t') x (List.mem_cons_of_mem _ hx)

theorem foldl_max_mem : ∀ (ts : List ℚ) (t : ℚ), ts.foldl max t ∈ t :: ts
  | [], t => by simp
  | t' :: ts, t => by
    rw [List.foldl_cons]
    rcases List.mem_cons.mp (foldl_max_mem ts (max t t')) with h | h
    · rw [h]
      rcases max_choice t t' with hc | hc <;> rw [hc]
      · exact List.mem_cons_self _ _
      · exact List.mem_cons_of_mem _ (List.mem_cons_self _ _)
    · exact List.mem_cons_of_mem _ (List.mem_cons_of_mem _ h)

theorem foldl_le_max : ∀ (ts : List ℚ) (t x : ℚ), x ∈ t :: ts → x ≤ ts.foldl max t
  | [], t, x, hx => by
    rw [List.mem_singleton] at hx
    subst hx
    exact le_rfl
  | t' :: ts, t, x, hx => by
    rw [List.foldl_cons]
    rcases List.mem_cons.mp hx with h | hx
    · rw [h]
      exact le_trans (le_max_left t t') (foldl_le_max ts (max t t') _ (List.mem_cons_self _ _))
    · rcases List.mem_cons.mp hx with h | hx
      · rw [h]
        exact le_trans (le_max_right t t') (foldl_le_max ts (max t t') _ (List.mem_cons_self _ _))
      · exact foldl_le_max ts (max t t') x (List.mem_cons_of_mem _ hx)

theorem foldl_add_map (f : FEntry → ℚ) : ∀ (g : List FEntry) (s : ℚ),
    g.foldl (fun acc x => acc + f x) s = s + (g.map f).sum
  | [], s => by simp
  | x :: g, s => by
    rw [List.foldl_cons, foldl_add_map f g (s + f x), List.map_cons, List.sum_cons]
    ring

theorem jround_mono {x y : ℚ} (h : x ≤ y) : jround x ≤ jround y :=
  Int.floor_le_floor (by linarith)

theorem round1_mono {x y : ℚ} (h : x ≤ y) : round1 x ≤ round1 y := by
  unfold round1
  have h1 := jround_mono (show x * 10 ≤ y * 10 by linarith)
  have h2 : (jround (x * 10) : ℚ) ≤ (jround (y * 10) : ℚ) := by exact_mod_cast h1
  linarith

theorem aggDay_date (k : ℤ) (g : List FEntry) : (aggDay k g).date = k := rfl

theorem aggDay_description (k : ℤ) (g : List FEntry) :
    (aggDay k g).description = dayDescription (g.map (fun f => f.description)) := rfl

theorem aggDay_min (k : ℤ) (t : FEntry) (ts : List FEntry) :
    (aggDay k (t :: ts)).temperature.min =
      round1 ((ts.map (fun f => f.temp)).foldl min t.temp) := rfl

theorem aggDay_max (k : ℤ) (t : FEntry) (ts : List FEntry) :
    (aggDay k (t :: ts)).temperature.max =
      round1 ((ts.map (fun f => f.temp)).foldl max t.temp) := rfl

theorem aggDay_humidity (k : ℤ) (g : List FEntry) :
    (aggDay k g).humidity =
      (jround ((g.map (fun f => f.humidity)).sum / (g.length : ℚ)) : ℚ) := by
  show (jround ((g.foldl (fun s f => s + f.humidity) 0) / (g.length : ℚ)) : ℚ) = _
  rw [foldl_add_map (fun f => f.humidity) g 0, zero_add]

theorem aggDay_windSpeed (k : ℤ) (g : List FEntry) :
    (aggDay k g).windSpeed =
      round1 ((g.map (fun f => f.windSpeed)).sum / (g.length : ℚ)) := by
  show round1 ((g.foldl (fun s f => s + f.windSpeed) 0) / (g.length : ℚ)) = _
  rw [foldl_add_map (fun f => f.windSpeed) g 0, zero_add]

theorem mem_processForecastData {l : List FEntry} {days : Nat} {f : DayForecast}
    (h : f ∈ processForecastData l days) :
    ∃ k g, (k, g) ∈ dailyData l ∧ f = aggDay k g := by
  unfold processForecastData at h
  rcases List.mem_map.mp h with ⟨p, hp, rfl⟩
  exact ⟨p.1, p.2, List.take_subset days (dailyData l) hp, rfl⟩

theorem dailyData_length (l : List FEntry) :
    (dailyData l).length = (l.map dayKey).toFinset.card := by
  have h1 : (dailyData l).length = (mapKeys (dailyData l)).length := by
    simp [mapKeys]
  rw [h1, dailyData_keys, firstDedup_length]

/-! The claim theorems about processForecastData. -/

/-- C1: every forecast series has exactly min(requested day count,
number of distinct UTC calendar dates in the upstream list) entries;
in particular, against at least 5 distinct dates and a schema-valid
day count (at most 5), exactly min(N, 5) entries. -/
theorem C1_forecast_series_length (l : List FEntry) (days : Nat) :
    (processForecastData l days).length = min days (l.map dayKey).toFinset.card ∧
    (5 ≤ (l.map dayKey).toFinset.card → days ≤ 5 →
      (processForecastData l days).length = min days 5) := by
  have hmain : (processForecastData l days).length = min days (l.map dayKey).toFinset.card := by
    unfold processForecastData
    rw [List.length_map, List.length_take, dailyData_length]
  exact ⟨hmain, fun h5 hd => by rw [hmain]; omega⟩

/-- Witness for C1 on a concrete five-date upstream list. -/
theorem C1_forecast_series_length_witness :
    (processForecastData exC1 3).length = min 3 5 :=
  (C1_forecast_series_length exC1 3).2 (by decide) (by decide)

/-- C10: the grouping key is the UTC day of the Unix timestamp (each
group holds exactly the entries of its day, in encounter order), and
the series lists the days in first-occurrence order, not re-sorted. -/
theorem C10_grouping_key_and_order (l : List FEntry) (days : Nat) :
    (∀ k g, (k, g) ∈ dailyData l → g = l.filter (fun e => dayKey e == k)) ∧
    (processForecastData l days).map (fun f => f.date) =
      (firstDedup (l.map dayKey)).take days := by
  refine ⟨fun k g h => (mem_dailyData h).1, ?_⟩
  unfold processForecastData
  rw [List.map_map]
  have hcomp : ((fun f : DayForecast => f.date) ∘ fun p : ℤ × List FEntry => aggDay p.1 p.2)
      = Prod.fst := by
    funext p; rfl
  rw [hcomp, List.map_take]
  rw [show (dailyData l).map Prod.fst = mapKeys (dailyData l) from rfl, dailyData_keys]

/-- Witness for C10 on a concrete list whose days are out of
chronological order: the day-2 group collects its two slices and the
output dates keep encounter order [2, 0]. -/
theorem C10_grouping_key_and_order_witness :
    exGroupD2 = exC10.filter (fun e => dayKey e == 2) ∧
    (processForecastData exC10 5).map (fun f => f.date) = [2, 0] := by
  have h := C10_grouping_key_and_order exC10 5
  refine ⟨?_, ?_⟩
  · refine h.1 2 exGroupD2 ?_
    rw [show dailyData exC10 = [(2, exGroupD2), (0, [exEntryD0])] from rfl]
    exact List.mem_cons_self _ _
  · rw [h.2]
    rfl

/-- C4: every per-day entry of a series produced from a non-empty
upstream list satisfies min temperature at most max temperature. -/
theorem C4_min_le_max (l : List FEntry) (days : Nat) (hl : l ≠ [])
    (f : DayForecast) (hf : f ∈ processForecastData l days) :
    f.temperature.min ≤ f.temperature.max := by
  rcases mem_processForecastData hf with ⟨k, g, hmem, rfl⟩
  rcases mem_dailyData hmem with ⟨hg, hne⟩
  rcases List.exists_cons_of_ne_nil hne with ⟨t, ts, hts⟩
  subst hts
  rw [aggDay_min, aggDay_max]
  refine round1_mono ?_
  exact le_trans
    (foldl_min_le (ts.map (fun f => f.temp)) t.temp t.temp (List.mem_cons_self _ _))
    (foldl_le_max (ts.map (fun f => f.temp)) t.temp t.temp (List.mem_cons_self _ _))

/-- Witness for C4 on the concrete two-entry day. -/
theorem C4_min_le_max_witness :
    (aggDay 0 exC2).temperature.min ≤ (aggDay 0 exC2).temperature.max := by
  refine C4_min_le_max exC2 3 (by decide) (aggDay 0 exC2) ?_
  rw [show processForecastData exC2 3 = [aggDay 0 exC2] from rfl]
  exact List.mem_singleton.mpr rfl

/-- C2 counterexample: on a day with humidities 50 and 51 the produced
humidity is 51 (the mean rounded to the nearest integer), which is not
the arithmetic mean 101/2 claimed. -/
theorem C2_humidity_cex :
    processForecastData exC2 3 = [aggDay 0 exC2] ∧
    (aggDay 0 exC2).humidity = 51 ∧
    ((exC2.map (fun e => e.humidity)).sum / (exC2.length : ℚ)) = 101 / 2 ∧
    (51 : ℚ) ≠ 101 / 2 := by
  refine ⟨rfl, ?_, ?_, by norm_num⟩
  · rw [aggDay_humidity]
    rw [show (exC2.map (fun f => f.humidity)) = [50, 51] from rfl]
    rw [show ((exC2.length : Nat) : ℚ) = 2 from by norm_num [exC2]]
    norm_num [jround]
  · rw [show (exC2.map (fun e => e.humidity)) = [50, 51] from rfl]
    norm_num [exC2]

/-- C2 amended: per non-empty date group, min and max are the minimum
and maximum of that group rounded to one decimal, humidity is the mean
rounded to the nearest integer, and wind speed is the mean rounded to
one decimal. -/
theorem C2_day_aggregates (l : List FEntry) (days : Nat) (f : DayForecast)
    (hf : f ∈ processForecastData l days) :
    ∃ k g, (k, g) ∈ dailyData l ∧ g ≠ [] ∧ f = aggDay k g ∧
      (f.temperature.min ∈ g.map (fun e => round1 e.temp) ∧
        ∀ e ∈ g, f.temperature.min ≤ round1 e.temp) ∧
      (f.temperature.max ∈ g.map (fun e => round1 e.temp) ∧
        ∀ e ∈ g, round1 e.temp ≤ f.temperature.max) ∧
      f.humidity = (jround ((g.map (fun e => e.humidity)).sum / (g.length : ℚ)) : ℚ) ∧
      f.windSpeed = round1 ((g.map (fun e => e.windSpeed)).sum / (g.length : ℚ)) := by
  rcases mem_processForecastData hf with ⟨k, g, hmem, rfl⟩
  rcases mem_dailyData hmem with ⟨hg, hne⟩
  refine ⟨k, g, hmem, hne, rfl, ?_, ?_, aggDay_humidity k g, aggDay_windSpeed k g⟩
  · rcases List.exists_cons_of_ne_nil hne with ⟨t, ts, hts⟩
    subst hts
    rw [aggDay_min]
    constructor
    · have hmm : (ts.map (fun f => f.temp)).foldl min t.temp ∈
          (t :: ts).map (fun f => f.temp) := by
        simpa using foldl_min_mem (ts.map (fun f => f.temp)) t.temp
      rcases List.mem_map.mp hmm with ⟨e, he, heq⟩
      refine List.mem_map.mpr ⟨e, he, ?_⟩
      rw [heq]
    · intro e he
      refine round1_mono ?_
      refine foldl_min_le (ts.map (fun f => f.temp)) t.temp e.temp ?_
      have : e.temp ∈ (t :: ts).map (fun f => f.temp) := List.mem_map.mpr ⟨e, he, rfl⟩
      simpa using this
  · rcases List.exists_cons_of_ne_nil hne with ⟨t, ts, hts⟩
    subst hts
    rw [aggDay_max]
    constructor
    · have hmm : (ts.map (fun f => f.temp)).foldl max t.temp ∈
          (t :: ts).map (fun f => f.temp) := by
        simpa using foldl_max_mem (ts.map (fun f => f.temp)) t.temp
      rcases List.mem_map.mp hmm with ⟨e, he, heq⟩
      refine List.mem_map.mpr ⟨e, he, ?_⟩
      rw [heq]
    · intro e he
      refine round1_mono ?_
      refine foldl_le_max (ts.map (fun f => f.temp)) t.temp e.temp ?_
      have : e.temp ∈ (t :: ts).map (fun f => f.temp) := List.mem_map.mpr ⟨e, he, rfl⟩
      simpa using this

/-- Witness for the amended C2 on the concrete two-entry day. -/
theorem C2_day_aggregates_witness :
    ∃ k g, (k, g) ∈ dailyData exC2 ∧ g ≠ [] ∧ aggDay 0 exC2 = aggDay k g ∧
      ((aggDay 0 exC2).temperature.min ∈ g.map (fun e => round1 e.temp) ∧
        ∀ e ∈ g, (aggDay 0 exC2).temperature.min ≤ round1 e.temp) ∧
      ((aggDay 0 exC2).temperature.max ∈ g.map (fun e => round1 e.temp) ∧
        ∀ e ∈ g, round1 e.temp ≤ (aggDay 0 exC2).temperature.max) ∧
      (aggDay 0 exC2).humidity =
        (jround ((g.map (fun e => e.humidity)).sum / (g.length : ℚ)) : ℚ) ∧
      (aggDay 0 exC2).windSpeed =
        round1 ((g.map (fun e => e.windSpeed)).sum / (g.length : ℚ)) := by
  refine C2_day_aggregates exC2 3 (aggDay 0 exC2) ?_
  rw [show processForecastData exC2 3 = [aggDay 0 exC2] from rfl]
  exact List.mem_singleton.mpr rfl

/-- C3 counterexample: a day whose only description is the empty string
produces the fallback "Unknown", which does not occur in the group at
all, so it is not a maximal-frequency description of the group. -/
theorem C3_empty_description_cex :
    processForecastData exC3 1 = [aggDay 0 exC3] ∧
    (aggDay 0 exC3).description = "Unknown" ∧
    exC3.map (fun e => e.description) = [""] ∧
    "Unknown" ∉ exC3.map (fun e => e.description) := by
  exact ⟨rfl, rfl, rfl, by decide⟩

/-- C3 amended: per non-empty date group the sort-and-pop winner w is
a maximal-frequency description and the last such value in encounter
order, and the produced description is w unless w is the empty string,
in which case it is the fallback "Unknown". -/
theorem C3_description_tiebreak (l : List FEntry) (days : Nat) (f : DayForecast)
    (hf : f ∈ processForecastData l days) :
    ∃ k g w, (k, g) ∈ dailyData l ∧ f = aggDay k g ∧
      mostCommonDesc (g.map (fun e => e.description)) = some w ∧
      (∀ d ∈ g.map (fun e => e.description),
        (g.map (fun e => e.description)).count d ≤
          (g.map (fun e => e.description)).count w) ∧
      ((g.map (fun e => e.description)).filter
        (fun d => (g.map (fun e => e.description)).count d ==
          (g.map (fun e => e.description)).count w)).getLast? = some w ∧
      f.description = if w = "" then "Unknown" else w := by
  rcases mem_processForecastData hf with ⟨k, g, hmem, rfl⟩
  rcases mem_dailyData hmem with ⟨hg, hne⟩
  have hdsne : g.map (fun e => e.description) ≠ [] := by
    intro hc
    exact hne (List.map_eq_nil_iff.mp hc)
  have hmc : mostCommonDesc (g.map (fun e => e.description)) =
      lastMaxBy (fun d => (g.map (fun e => e.description)).count d)
        (g.map (fun e => e.description)) :=
    insSortKey_getLast _ _
  cases hw : lastMaxBy (fun d => (g.map (fun e => e.description)).count d)
      (g.map (fun e => e.description)) with
  | none => exact absurd ((lastMaxBy_eq_none_iff _ _).mp hw) hdsne
  | some w =>
    obtain ⟨hwmem, hwbound, hwfilter⟩ := lastMaxBy_spec _ _ w hw
    have hmcsome : mostCommonDesc (g.map (fun e => e.description)) = some w := by
      rw [hmc, hw]
    refine ⟨k, g, w, hmem, rfl, hmcsome, hwbound, hwfilter, ?_⟩
    rw [aggDay_description]
    unfold dayDescription
    rw [hmcsome]

/-- Witness for the amended C3 on the concrete two-entry day. -/
theorem C3_description_tiebreak_witness :
    ∃ k g w, (k, g) ∈ dailyData exC2 ∧ aggDay 0 exC2 = aggDay k g ∧
      mostCommonDesc (g.map (fun e => e.description)) = some w ∧
      (∀ d ∈ g.map (fun e => e.description),
        (g.map (fun e => e.description)).count d ≤
          (g.map (fun e => e.description)).count w) ∧
      ((g.map (fun e => e.description)).filter
        (fun d => (g.map (fun e => e.description)).count d ==
          (g.map (fun e => e.description)).count w)).getLast? = some w ∧
      (aggDay 0 exC2).description = if w = "" then "Unknown" else w := by
  refine C3_description_tiebreak exC2 3 (aggDay 0 exC2) ?_
  rw [show processForecastData exC2 3 = [aggDay 0 exC2] from rfl]
  exact List.mem_singleton.mpr rfl

/-! The claim theorems about the handlers and the dispatcher. -/

theorem getCurrentWeather_ok_shape (env : Upstream) (loc : String) (u : TempUnits)
    (r : ToolResponse) (h : (getCurrentWeather env loc u).1 = Except.ok r) :
    ∃ t, r.content = [ContentBlock.text t] := by
  unfold getCurrentWeather at h
  split at h
  · simp at h
  · split at h
    · split at h <;> simp at h
    · simp only [] at h
      injection h with h
      subst h
      exact ⟨_, rfl⟩

theorem getWeatherForecast_ok_shape (env : Upstream) (loc : String) (d : Nat)
    (u : TempUnits) (r : ToolResponse) (h : (getWeatherForecast env loc d u).1 = Except.ok r) :
    ∃ t, r.content = [ContentBlock.text t] := by
  unfold getWeatherForecast at h
  split at h
  · simp at h
  · split at h
    · split at h <;> simp at h
    · simp only [] at h
      injection h with h
      subst h
      exact ⟨_, rfl⟩

theorem searchLocations_ok_shape (env : Upstream) (q : String) (lim : Nat)
    (r : ToolResponse) (h : (searchLocations env q lim).1 = Except.ok r) :
    ∃ t, r.content = [ContentBlock.text t] := by
  unfold searchLocations at h
  split at h
  · simp at h
  · split at h
    · simp at h
    · split at h
      · simp only [] at h
        injection h with h
        subst h
        exact ⟨_, rfl⟩
      · simp only [] at h
        injection h with h
        subst h
        exact ⟨_, rfl⟩

theorem dispatch_ok_shape (env : Upstream) (name : String) (args : ToolArgs)
    (r : ToolResponse) (h : dispatchResult env name args = Except.ok r) :
    ∃ t, r.content = [ContentBlock.text t] := by
  unfold dispatchResult at h
  split at h
  · cases args with
    | currentWeather loc u => exact getCurrentWeather_ok_shape env loc u r h
    | forecast loc d u => simp at h
    | search q lim => simp at h
  · split at h
    · cases args with
      | currentWeather loc u => simp at h
      | forecast loc d u => exact getWeatherForecast_ok_shape env loc d u r h
      | search q lim => simp at h
    · split at h
      · cases args with
        | currentWeather loc u => simp at h
        | forecast loc d u => simp at h
        | search q lim => exact searchLocations_ok_shape env q lim r h
      · simp at h

/-- C5: every tool call, including one naming an unknown operation and
one whose handler throws, yields a response with a single text block;
a thrown error is rendered as a text starting with the Error: prefix,
and an unknown name yields the corresponding Error: text. -/
theorem C5_dispatch_total (env : Upstream) (name : String) (args : ToolArgs) :
    (∃ t, (callTool env name args).content = [ContentBlock.text t]) ∧
    (∀ msg, dispatchResult env name args = Except.error msg →
      callTool env name args = ⟨[ContentBlock.text ("Error: " ++ msg)]⟩) ∧
    ((name ≠ "get_current_weather" ∧ name ≠ "get_weather_forecast" ∧
        name ≠ "search_locations") →
      callTool env name args =
        ⟨[ContentBlock.text ("Error: " ++ ("Unknown tool: " ++ name))]⟩) := by
  refine ⟨?_, ?_, ?_⟩
  · cases hd : dispatchResult env name args with
    | ok r =>
      have : callTool env name args = r := by
        unfold callTool
        rw [hd]
      rw [this]
      exact dispatch_ok_shape env name args r hd
    | error msg =>
      have : callTool env name args = ⟨[ContentBlock.text ("Error: " ++ msg)]⟩ := by
        unfold callTool
        rw [hd]
      rw [this]
      exact ⟨_, rfl⟩
  · intro msg hmsg
    unfold callTool
    rw [hmsg]
  · rintro ⟨h1, h2, h3⟩
    have hd : dispatchResult env name args = Except.error ("Unknown tool: " ++ name) := by
      unfold dispatchResult
      rw [if_neg h1, if_neg h2, if_neg h3]
    unfold callTool
    rw [hd]

/-- Witness for C5: an unknown tool name yields the Error: text. -/
theorem C5_dispatch_total_witness :
    callTool baseEnv "bogus_tool" (ToolArgs.search "Paris" 5) =
      ⟨[ContentBlock.text ("Error: " ++ ("Unknown tool: " ++ "bogus_tool"))]⟩ :=
  (C5_dispatch_total baseEnv "bogus_tool" (ToolArgs.search "Paris" 5)).2.2
    (by refine ⟨?_, ?_, ?_⟩ <;> decide)

/-- C6: with no configured credential every one of the three weather
operations fails with the missing-credential error and performs no
upstream call at all. -/
theorem C6_missing_credential (env : Upstream) (loc : String) (u : TempUnits)
    (d : Nat) (q : String) (lim : Nat) (h : env.apiKey = "") :
    getCurrentWeather env loc u = (Except.error keyMissingMsg, []) ∧
    getWeatherForecast env loc d u = (Except.error keyMissingMsg, []) ∧
    searchLocations env q lim = (Except.error keyMissingMsg, []) := by
  refine ⟨?_, ?_, ?_⟩ <;> simp [getCurrentWeather, getWeatherForecast, searchLocations, h]

/-- Witness for C6 on the credential-free environment. -/
theorem C6_missing_credential_witness :
    getCurrentWeather envNoKey "London" TempUnits.metric = (Except.error keyMissingMsg, []) ∧
    getWeatherForecast envNoKey "London" 3 TempUnits.metric = (Except.error keyMissingMsg, []) ∧
    searchLocations envNoKey "Paris" 5 = (Except.error keyMissingMsg, []) :=
  C6_missing_credential envNoKey "London" TempUnits.metric 3 "Paris" 5 rfl

/-- C7 counterexample: a geocoding response with status 404 is not
translated into a not-found error; it yields the generic provider
error annotated with the numeric status, whose text does not contain
the phrase used by the not-found translation of the other endpoints. -/
theorem C7_geocoding_404_cex :
    (searchLocations envGeo404 "Paris" 5).1 =
      Except.error (geoApiErrorMsg 404 "Not Found") ∧
    geoApiErrorMsg 404 "Not Found" = "Geocoding API error: 404 Not Found" ∧
    strContains (geoApiErrorMsg 404 "Not Found") "not found" = false := by
  refine ⟨?_, by decide, by decide⟩
  simp [searchLocations, envGeo404, baseEnv]

/-- C7 amended: for current weather and forecast a 404 becomes the
not-found error and any other non-success status the generic provider
error with the numeric status; for geocoding every non-success status,
404 included, becomes the generic provider error with the status. -/
theorem C7_status_translation (env : Upstream) (loc : String) (u : TempUnits)
    (d : Nat) (q : String) (lim : Nat) (hkey : env.apiKey ≠ "") :
    (env.currentResp.ok = false →
      (env.currentResp.status = 404 →
        (getCurrentWeather env loc u).1 = Except.error (locNotFoundMsg loc)) ∧
      (env.currentResp.status ≠ 404 →
        (getCurrentWeather env loc u).1 =
          Except.error (weatherApiErrorMsg env.currentResp.status env.currentResp.statusText))) ∧
    (env.forecastResp.ok = false →
      (env.forecastResp.status = 404 →
        (getWeatherForecast env loc d u).1 = Except.error (locNotFoundMsg loc)) ∧
      (env.forecastResp.status ≠ 404 →
        (getWeatherForecast env loc d u).1 =
          Except.error (weatherApiErrorMsg env.forecastResp.status env.forecastResp.statusText))) ∧
    (env.geoResp.ok = false →
      (searchLocations env q lim).1 =
        Except.error (geoApiErrorMsg env.geoResp.status env.geoResp.statusText)) := by
  refine ⟨fun hok => ⟨fun h404 => ?_, fun h404 => ?_⟩,
          fun hok => ⟨fun h404 => ?_, fun h404 => ?_⟩,
          fun hok => ?_⟩
  · simp [getCurrentWeather, hkey, hok, h404]
  · simp [getCurrentWeather, hkey, hok, h404]
  · simp [getWeatherForecast, hkey, hok, h404]
  · simp [getWeatherForecast, hkey, hok, h404]
  · simp [searchLocations, hkey, hok]

/-- Witness for the amended C7 on an environment whose three endpoints
answer 404, 500 and 403. -/
theorem C7_status_translation_witness :
    (getCurrentWeather envAllBad "Nowhere12345" TempUnits.metric).1 =
      Except.error (locNotFoundMsg "Nowhere12345") ∧
    (getWeatherForecast envAllBad "Nowhere12345" 3 TempUnits.metric).1 =
      Except.error (weatherApiErrorMsg 500 "Internal Server Error") ∧
    (searchLocations envAllBad "Paris" 5).1 =
      Except.error (geoApiErrorMsg 403 "Forbidden") := by
  have h := C7_status_translation envAllBad "Nowhere12345" TempUnits.metric 3 "Paris" 5
    (by decide)
  exact ⟨(h.1 rfl).1 rfl, (h.2.1 rfl).2 (by decide), h.2.2 rfl⟩

/-- C8: an empty geocoding result array yields a normal success
response with the zero-match message, never an error response. -/
theorem C8_empty_geocoding (env : Upstream) (q : String) (lim : Nat)
    (hkey : env.apiKey ≠ "") (hok : env.geoResp.ok = true) (hbody : env.geoBody = []) :
    searchLocations env q lim =
      (Except.ok ⟨[ContentBlock.text (noLocationsMsg q)]⟩, [UpstreamCall.geocoding]) := by
  simp [searchLocations, hkey, hok, hbody]

/-- Witness for C8 on the empty-geocoding environment. -/
theorem C8_empty_geocoding_witness :
    searchLocations envGeoEmpty "Atlantis" 5 =
      (Except.ok ⟨[ContentBlock.text (noLocationsMsg "Atlantis")]⟩, [UpstreamCall.geocoding]) :=
  C8_empty_geocoding envGeoEmpty "Atlantis" 5 (by decide) rfl rfl

/-- C9: a non-empty geocoding response is enumerated in full, one line
per upstream element, with no client-side truncation: the response is
independent of the limit parameter. -/
theorem C9_no_truncation (env : Upstream) (q : String) (lim lim2 : Nat)
    (hkey : env.apiKey ≠ "") (hok : env.geoResp.ok = true) (hbody : env.geoBody ≠ []) :
    (searchLocations env q lim).1 =
      Except.ok ⟨[ContentBlock.text (locationsText q (env.geoBody.map toLocationData)).trim]⟩ ∧
    (env.geoBody.map toLocationData).length = env.geoBody.length ∧
    ((env.geoBody.map toLocationData).enum.map (fun p => locationLine p.1 p.2)).length =
      env.geoBody.length ∧
    (searchLocations env q lim).1 = (searchLocations env q lim2).1 := by
  have hlen : ¬ env.geoBody.length = 0 := by simpa using hbody
  refine ⟨?_, by simp, by simp, ?_⟩
  · simp [searchLocations, hkey, hok, hlen]
  · simp [searchLocations, hkey, hok, hlen]

/-- Witness for C9: three upstream elements against limits 2 and 10. -/
theorem C9_no_truncation_witness :
    (searchLocations envGeoThree "Paris" 2).1 =
      Except.ok ⟨[ContentBlock.text
        (locationsText "Paris" (envGeoThree.geoBody.map toLocationData)).trim]⟩ ∧
    (envGeoThree.geoBody.map toLocationData).length = 3 ∧
    (searchLocations envGeoThree "Paris" 2).1 = (searchLocations envGeoThree "Paris" 10).1 := by
  have h := C9_no_truncation envGeoThree "Paris" 2 10 (by decide) rfl (by decide)
  exact ⟨h.1, h.2.1.trans (by rfl), h.2.2.2⟩

end WeatherMCP
